import Mathlib

/-!
Shallow embedding of `mne/channels/_dig_montage_utils.py`.

The module has three functions:
* `_transform_to_head_call` — the Frame Resolver: promotes a digitization
  record ("Bunch") to the head coordinate frame, extracting fiducials from
  `elp`/`point_names` when the landmark fields are absent;
* `_read_dig_montage_fif` — the Binary-Format Reader: classifies decoded
  digitization records (kind/ident/position/frame) into the canonical record;
* `_read_dig_montage_egi` — the XML-Format Reader: classifies sensor nodes
  (name/number/kind/coordinates) into the canonical record.

External collaborators (not part of the embedded source file) are treated as
parameters or modelled from the spec where noted: the rigid-transform
derivation `get_ras_to_neuromag_trans` and the affine application
`apply_trans` live in `mne.transforms` and are passed in as functions; the
frame validator `_check_frame` lives in `mne.channels.montage`; the FIFF
constants live in `mne.io.constants`.  File opening, the low-level FIF tree
decoder and the XML parser are out of scope: the readers here consume the
already-decoded record / sensor sequences.

Coordinates are embedded as integer 3-vectors — exact arithmetic; none of
the verified properties depends on fractional coordinate values, only on
which points flow where; Python dicts as ordered
association lists with Python `dict` assignment semantics (overwrite in
place, append when fresh); Python exceptions as `Except` with one error
constructor per raise site.
-/

/-- A 3-vector of coordinates. -/
structure V3 where
  x : ℤ
  y : ℤ
  z : ℤ
deriving DecidableEq

/-- Componentwise scaling, `coordinates *= _scaling`. -/
def scaleV3 (c : ℤ) (v : V3) : V3 := ⟨c * v.x, c * v.y, c * v.z⟩

/-- A decoded digitization record as handed over by the external FIF tree
decoder: `kind` code, `ident` code, position `r`, declared coordinate frame. -/
structure DigPoint where
  kind : Nat
  ident : Nat
  r : V3
  coord_frame : String
deriving DecidableEq

/-- FIFF point-kind constant (from `mne.io.constants`). -/
def FIFFV_POINT_CARDINAL : Nat := 1

/-- FIFF point-kind constant (from `mne.io.constants`). -/
def FIFFV_POINT_HPI : Nat := 2

/-- FIFF point-kind constant (from `mne.io.constants`). -/
def FIFFV_POINT_EEG : Nat := 3

/-- FIFF point-kind constant (from `mne.io.constants`). -/
def FIFFV_POINT_EXTRA : Nat := 4

/-- FIFF cardinal-ident constant (from `mne.io.constants`). -/
def FIFFV_POINT_LPA : Nat := 1

/-- FIFF cardinal-ident constant (from `mne.io.constants`). -/
def FIFFV_POINT_NASION : Nat := 2

/-- FIFF cardinal-ident constant (from `mne.io.constants`). -/
def FIFFV_POINT_RPA : Nat := 3

/-- One error constructor per raise site of the source module. -/
inductive DigErr where
  /-- `_check_frame` failure: a record's declared frame is not the expected
  one; carries the offending record. -/
  | frameMismatch (d : DigPoint)
  /-- `KeyError` from `_cardinal_ident_mapping[d['ident']]`: unrecognized
  cardinal ident. -/
  | malformedInput (ident : Nat)
  /-- `KeyError` from `fid_name_map[name]`: unrecognized fiducial name. -/
  | malformedName (name : String)
  /-- `KeyError` from `fids[...]`, or the explicit missing-points
  `ValueError` in `_transform_to_head_call`; carries the missing names. -/
  | missingFiducial (missing : List String)
  /-- `ValueError`: ELP points and names must be specified for
  transformation. -/
  | elpRequired
  /-- `IndexError` from indexing/masking `elp` out of range. -/
  | indexError
  /-- Argument-validation `ValueError` at the top of a reader. -/
  | badUsage (msg : String)
deriving DecidableEq

/-- The canonical point-set record (the `Bunch` produced by the readers and
rewritten by the Frame Resolver).  Every optional Python attribute is an
`Option`; `dig_ch_pos` is an ordered association list. -/
structure DigData where
  coord_frame : String
  nasion : Option V3
  lpa : Option V3
  rpa : Option V3
  hsp : Option (List V3)
  hpi : Option (List V3)
  elp : Option (List V3)
  point_names : Option (List String)
  dig_ch_pos : Option (List (String × V3))
deriving DecidableEq

/-- `k in dict` for an association list. -/
def keyMem (m : List (String × V3)) (k : String) : Bool :=
  match m with
  | [] => false
  | p :: rest => if p.1 = k then true else keyMem rest k

/-- Python `dict` assignment `m[k] = v`: overwrite in place when the key
exists (keeping its position), append otherwise. -/
def dictInsert (m : List (String × V3)) (k : String) (v : V3) :
    List (String × V3) :=
  if keyMem m k then m.map (fun p => if p.1 = k then (k, v) else p)
  else m ++ [(k, v)]

/-- Python `dict` lookup `m[k]` (first, hence unique, binding). -/
def lookupDict (m : List (String × V3)) (k : String) : Option V3 :=
  match m with
  | [] => none
  | p :: rest => if p.1 = k then some p.2 else lookupDict rest k

/-- `'%03d' % n`: decimal digits zero-padded on the left to width 3. -/
def zfill3 (n : Nat) : String :=
  let s := toString n
  if 3 ≤ s.length then s
  else String.mk (List.replicate (3 - s.length) '0') ++ s

/-- `name in list` for strings (Python `in`). -/
def strMem (names : List String) (k : String) : Bool :=
  match names with
  | [] => false
  | n :: rest => if n = k then true else strMem rest k

/-- Python `list.index`: index of the first occurrence (only used under a
membership guard, as in the source). -/
def pyIndex (names : List String) (k : String) : Nat :=
  match names with
  | [] => 0
  | n :: rest => if n = k then 0 else pyIndex rest k + 1

/-- `xs[mask]` for a boolean mask that is `False` exactly at the positions
listed in `drop` (the source builds the mask as ones with
`mask[names.index(fid)] = False`): keep the entries whose index is not
dropped, preserving order.  `i` is the index of the head of `xs`. -/
def dropIdxsAux {α : Type} (drop : List Nat) (i : Nat) (xs : List α) :
    List α :=
  match xs with
  | [] => []
  | x :: rest =>
    if drop.contains i then dropIdxsAux drop (i + 1) rest
    else x :: dropIdxsAux drop (i + 1) rest

/-- Order-preserving removal of the entries at the indices in `drop`. -/
def dropIdxs {α : Type} (drop : List Nat) (xs : List α) : List α :=
  dropIdxsAux drop 0 xs

/-- Python `str.lower` restricted to the characters that occur here. -/
def lowerStr (s : String) : String :=
  String.mk (s.data.map Char.toLower)

/-- `kinds = ('nasion', 'lpa', 'rpa')` of `_transform_to_head_call`. -/
def fidKinds : List String := ["nasion", "lpa", "rpa"]

/-- Lines 28–52 of `_transform_to_head_call`: re-derive all three landmarks
from `elp`/`point_names` (the branch taken when any landmark field is
`None`).  Names are lowercased, the three fiducial names must all occur
(else the missing ones are reported), the matched `elp` entries become the
landmarks, and those entries are removed from `elp` and `point_names` by
the boolean mask.  Requires `elp`/`point_names` to be present. -/
def resolveFromElp (data : DigData) :
    Except DigErr (V3 × V3 × V3 × DigData) :=
  match data.elp, data.point_names with
  | some elp, some point_names =>
    let names := point_names.map lowerStr
    let missing := fidKinds.filter (fun name => ! strMem names name)
    if missing.length ≠ 0 then
      Except.error (DigErr.missingFiducial missing)
    else
      match elp.get? (pyIndex names "nasion"),
            elp.get? (pyIndex names "lpa"),
            elp.get? (pyIndex names "rpa") with
      | some nasion, some lpa, some rpa =>
        if elp.length = names.length then
          let drop := [pyIndex names "nasion", pyIndex names "lpa",
                       pyIndex names "rpa"]
          Except.ok (nasion, lpa, rpa,
            { data with elp := some (dropIdxs drop elp),
                        point_names := some (dropIdxs drop point_names) })
        else Except.error DigErr.indexError
      | _, _, _ => Except.error DigErr.indexError
  | _, _ => Except.error DigErr.elpRequired

/-- Lines 27–52 of `_transform_to_head_call`: resolve the landmark triple
`(nasion, lpa, rpa)`.  If all three landmark fields are populated they are
used directly and the record is untouched; if any is `None`, all three are
re-derived from `elp`/`point_names`. -/
def resolveLandmarks (data : DigData) :
    Except DigErr (V3 × V3 × V3 × DigData) :=
  match data.nasion, data.rpa, data.lpa with
  | some nasion, some rpa, some lpa => Except.ok (nasion, lpa, rpa, data)
  | _, _, _ => resolveFromElp data

/-- Transformed `dig_ch_pos`: every value gets the transform, keys and
order are untouched (the source rewrites the dict values in place). -/
def applyDict {T : Type} (appT : T → V3 → V3) (t : T)
    (m : List (String × V3)) : List (String × V3) :=
  m.map (fun p => (p.1, appT t p.2))

/-- `_transform_to_head_call(data)`.  The rigid-transform derivation
`get_ras_to_neuromag_trans` and the affine application `apply_trans` are
library collaborators from `mne.transforms` and are taken as parameters
(`gras`, `appT`) over an abstract transform type `T`. -/
def _transform_to_head_call {T : Type} (gras : V3 → V3 → V3 → T)
    (appT : T → V3 → V3) (data : DigData) : Except DigErr DigData :=
  if data.coord_frame = "head" then Except.ok data
  else
    match resolveLandmarks data with
    | Except.error e => Except.error e
    | Except.ok (nasion, lpa, rpa, d2) =>
      let native_head_t := gras nasion lpa rpa
      Except.ok { d2 with
        nasion := some (appT native_head_t nasion),
        lpa := some (appT native_head_t lpa),
        rpa := some (appT native_head_t rpa),
        elp := d2.elp.map (fun l => l.map (appT native_head_t)),
        hsp := d2.hsp.map (fun l => l.map (appT native_head_t)),
        dig_ch_pos := d2.dig_ch_pos.map (applyDict appT native_head_t),
        coord_frame := "head" }

/-- Modelled from the spec: `_check_frame` is defined in
`mne.channels.montage` (resolved at call time to avoid a circular import)
and is not part of the embedded source file.  Per the spec, the external
frame validator fails the whole read when a record's declared frame differs
from the expected one, naming the offending record. -/
def _check_frame (d : DigPoint) (frame : String) : Except DigErr Unit :=
  if d.coord_frame = frame then Except.ok ()
  else Except.error (DigErr.frameMismatch d)

/-- `_cardinal_ident_mapping`: the fixed cardinal-ident → fiducial-name
table; `none` encodes a `KeyError` on lookup. -/
def _cardinal_ident_mapping (ident : Nat) : Option String :=
  if ident = FIFFV_POINT_NASION then some "nasion"
  else if ident = FIFFV_POINT_LPA then some "lpa"
  else if ident = FIFFV_POINT_RPA then some "rpa"
  else none

/-- The mutable locals of `_read_dig_montage_fif`'s classification loop. -/
structure FifAcc where
  hsp : List V3
  hpi : List V3
  elp : List V3
  point_names : List String
  fids : List (String × V3)
  dig_ch_pos : List (String × V3)
deriving DecidableEq

/-- The empty accumulators at loop entry. -/
def initFifAcc : FifAcc := ⟨[], [], [], [], [], []⟩

/-- One iteration of the `for d in dig` loop of `_read_dig_montage_fif`. -/
def fifStep (st : FifAcc) (d : DigPoint) : Except DigErr FifAcc :=
  if d.kind = FIFFV_POINT_CARDINAL then
    match _check_frame d "head" with
    | Except.error e => Except.error e
    | Except.ok _ =>
      match _cardinal_ident_mapping d.ident with
      | some name =>
        Except.ok { st with fids := dictInsert st.fids name d.r }
      | none => Except.error (DigErr.malformedInput d.ident)
  else if d.kind = FIFFV_POINT_HPI then
    match _check_frame d "head" with
    | Except.error e => Except.error e
    | Except.ok _ =>
      Except.ok { st with
        hpi := st.hpi ++ [d.r],
        elp := st.elp ++ [d.r],
        point_names := st.point_names ++ ["HPI" ++ zfill3 d.ident] }
  else if d.kind = FIFFV_POINT_EXTRA then
    match _check_frame d "head" with
    | Except.error e => Except.error e
    | Except.ok _ => Except.ok { st with hsp := st.hsp ++ [d.r] }
  else if d.kind = FIFFV_POINT_EEG then
    match _check_frame d "head" with
    | Except.error e => Except.error e
    | Except.ok _ =>
      Except.ok { st with
        dig_ch_pos := dictInsert st.dig_ch_pos ("EEG" ++ zfill3 d.ident) d.r }
  else Except.ok st

/-- The whole `for d in dig` loop, threading the accumulators. -/
def fifFold (st : FifAcc) (dig : List DigPoint) : Except DigErr FifAcc :=
  match dig with
  | [] => Except.ok st
  | d :: rest =>
    match fifStep st d with
    | Except.error e => Except.error e
    | Except.ok st2 => fifFold st2 rest

/-- `fids[name]`: `KeyError` (here `missingFiducial [name]`) when the
fiducial was never assigned. -/
def requireFid (fids : List (String × V3)) (name : String) :
    Except DigErr V3 :=
  match lookupDict fids name with
  | some v => Except.ok v
  | none => Except.error (DigErr.missingFiducial [name])

/-- `_read_dig_montage_fif` on the already-decoded record sequence (file
opening and the low-level tree decode are external).  The two argument
guards of the source are kept; the final `Bunch` evaluates
`fids['nasion']`, `fids['lpa']`, `fids['rpa']` in that order, keeps `hpi`
and `point_names` as plain (possibly empty) sequences, nulls out empty
`hsp`/`elp`, and fixes the frame to head. -/
def _read_dig_montage_fif (raiseTransformErr allDataKwargsAreNone : Bool)
    (dig : List DigPoint) : Except DigErr DigData :=
  if raiseTransformErr then
    Except.error (DigErr.badUsage
      "transform must be True and dev_head_t must be False for FIF dig montage")
  else if !allDataKwargsAreNone then
    Except.error (DigErr.badUsage
      "hsp, hpi, elp, point_names, egi must all be None if fif is not None")
  else
    match fifFold initFifAcc dig with
    | Except.error e => Except.error e
    | Except.ok st =>
      match requireFid st.fids "nasion" with
      | Except.error e => Except.error e
      | Except.ok nasion =>
        match requireFid st.fids "lpa" with
        | Except.error e => Except.error e
        | Except.ok lpa =>
          match requireFid st.fids "rpa" with
          | Except.error e => Except.error e
          | Except.ok rpa =>
            Except.ok {
              coord_frame := "head",
              nasion := some nasion, lpa := some lpa, rpa := some rpa,
              hsp := if st.hsp.length ≠ 0 then some st.hsp else none,
              hpi := some st.hpi,
              elp := if st.elp.length ≠ 0 then some st.elp else none,
              point_names := some st.point_names,
              dig_ch_pos := some st.dig_ch_pos }

/-- One decoded sensor node of the XML layout: name, integer number,
integer kind code, three raw coordinates (the XML parse is external). -/
structure Sensor where
  name : String
  number : Nat
  kind : Nat
  c1 : ℤ
  c2 : ℤ
  c3 : ℤ
deriving DecidableEq

/-- `fid_name_map`: fiducial display name → field name; `none` encodes the
`KeyError` on an unrecognized name. -/
def fid_name_map (name : String) : Option String :=
  if name = "Nasion" then some "nasion"
  else if name = "Right periauricular point" then some "rpa"
  else if name = "Left periauricular point" then some "lpa"
  else none

/-- The mutable locals of `_read_dig_montage_egi`'s sensor loop, plus the
warnings emitted so far (the source calls `warn`, a side effect). -/
structure EgiAcc where
  fids : List (String × V3)
  dig_ch_pos : List (String × V3)
  warnings : List String
deriving DecidableEq

/-- The empty accumulators at loop entry. -/
def initEgiAcc : EgiAcc := ⟨[], [], []⟩

/-- The warning text emitted for an unrecognized sensor kind. -/
def warnUnknownKind (kind : Nat) : String :=
  "Unknown sensor type " ++ toString kind ++
    " detected. Skipping sensor...Proceed with caution!"

/-- One iteration of the `for s in sensors` loop of
`_read_dig_montage_egi`: scale the coordinates, then dispatch on `kind`
(0 = EEG channel keyed by the sensor number, 1 = reference keyed by the
current dict size + 1, 2 = fiducial via `fid_name_map`, anything else warns
and skips). -/
def egiStep (scaling : ℤ) (st : EgiAcc) (s : Sensor) : Except DigErr EgiAcc :=
  let coordinates := scaleV3 scaling ⟨s.c1, s.c2, s.c3⟩
  if s.kind = 0 then
    Except.ok { st with
      dig_ch_pos := dictInsert st.dig_ch_pos ("EEG " ++ zfill3 s.number)
        coordinates }
  else if s.kind = 1 then
    Except.ok { st with
      dig_ch_pos := dictInsert st.dig_ch_pos
        ("EEG " ++ zfill3 (st.dig_ch_pos.length + 1)) coordinates }
  else if s.kind = 2 then
    match fid_name_map s.name with
    | some fidName =>
      Except.ok { st with fids := dictInsert st.fids fidName coordinates }
    | none => Except.error (DigErr.malformedName s.name)
  else
    Except.ok { st with warnings := st.warnings ++ [warnUnknownKind s.kind] }

/-- The whole `for s in sensors` loop. -/
def egiFold (scaling : ℤ) (st : EgiAcc) (sensors : List Sensor) :
    Except DigErr EgiAcc :=
  match sensors with
  | [] => Except.ok st
  | s :: rest =>
    match egiStep scaling st s with
    | Except.error e => Except.error e
    | Except.ok st2 => egiFold scaling st2 rest

/-- `_read_dig_montage_egi` on the already-parsed sensor sequence.  Returns
the record together with the warnings emitted.  The final `Bunch` requires
all three fiducials (in the order nasion, lpa, rpa), fixes the frame to
`unknown`, and leaves `hsp`/`hpi`/`elp`/`point_names` absent. -/
def _read_dig_montage_egi (scaling : ℤ) (allDataKwargsAreNone : Bool)
    (sensors : List Sensor) : Except DigErr (DigData × List String) :=
  if !allDataKwargsAreNone then
    Except.error (DigErr.badUsage
      "hsp, hpi, elp, point_names, fif must all be None if egi is not None")
  else
    match egiFold scaling initEgiAcc sensors with
    | Except.error e => Except.error e
    | Except.ok st =>
      match requireFid st.fids "nasion" with
      | Except.error e => Except.error e
      | Except.ok nasion =>
        match requireFid st.fids "lpa" with
        | Except.error e => Except.error e
        | Except.ok lpa =>
          match requireFid st.fids "rpa" with
          | Except.error e => Except.error e
          | Except.ok rpa =>
            Except.ok ({
              coord_frame := "unknown",
              nasion := some nasion, lpa := some lpa, rpa := some rpa,
              hsp := none, hpi := none, elp := none, point_names := none,
              dig_ch_pos := some st.dig_ch_pos }, st.warnings)

/-! ### Concrete sample inputs used by the witnesses and counterexamples -/

/-- A record already in the head frame (for the no-op path). -/
def sampleHeadData : DigData :=
  { coord_frame := "head", nasion := some ⟨0, 1, 0⟩, lpa := some ⟨-1, 0, 0⟩,
    rpa := some ⟨1, 0, 0⟩, hsp := some [⟨3, 3, 3⟩], hpi := some [],
    elp := none, point_names := none, dig_ch_pos := none }

/-- The `elp` entries of the spec's fiducial-extraction example. -/
def sampleElp : List V3 := [⟨0, 1, 0⟩, ⟨-1, 0, 0⟩, ⟨1, 0, 0⟩, ⟨5, 5, 5⟩]

/-- The spec's fiducial-extraction example: no landmark fields, fiducials
carried in `elp` under `point_names = ["Nasion", "LPA", "RPA", "HPI001"]`. -/
def sampleElpData : DigData :=
  { coord_frame := "meg", nasion := none, lpa := none, rpa := none,
    hsp := none, hpi := some [⟨2, 2, 2⟩], elp := some sampleElp,
    point_names := some ["Nasion", "LPA", "RPA", "HPI001"],
    dig_ch_pos := none }

/-- A raw (non-head) record with all landmark fields populated and every
spatial collection present. -/
def sampleRawData : DigData :=
  { coord_frame := "meg", nasion := some ⟨0, 1, 0⟩, lpa := some ⟨-1, 0, 0⟩,
    rpa := some ⟨1, 0, 0⟩, hsp := some [⟨3, 3, 3⟩], hpi := some [⟨2, 2, 2⟩],
    elp := some [⟨4, 4, 4⟩], point_names := some ["HPI001"],
    dig_ch_pos := some [("EEG001", ⟨7, 7, 7⟩)] }

/-- A raw record with a partially populated landmark triple and no `elp`. -/
def samplePartialData : DigData :=
  { coord_frame := "meg", nasion := some ⟨0, 1, 0⟩, lpa := none, rpa := none,
    hsp := none, hpi := none, elp := none, point_names := none,
    dig_ch_pos := none }

/-- Decoded record sequence: the three head-frame cardinals followed by a
record of an unrecognized kind whose declared frame is not head. -/
def sampleStrayFrameDig : List DigPoint :=
  [⟨1, 2, ⟨0, 1, 0⟩, "head"⟩, ⟨1, 1, ⟨-1, 0, 0⟩, "head"⟩,
   ⟨1, 3, ⟨1, 0, 0⟩, "head"⟩, ⟨99, 0, ⟨0, 0, 0⟩, "unknown"⟩]

/-- A complete decoded record sequence with one record per category. -/
def sampleFullDig : List DigPoint :=
  [⟨1, 2, ⟨0, 1, 0⟩, "head"⟩, ⟨1, 1, ⟨-1, 0, 0⟩, "head"⟩,
   ⟨1, 3, ⟨1, 0, 0⟩, "head"⟩, ⟨2, 1, ⟨2, 2, 2⟩, "head"⟩,
   ⟨4, 0, ⟨3, 3, 3⟩, "head"⟩, ⟨3, 7, ⟨7, 7, 7⟩, "head"⟩]

/-- A decoded record sequence with cardinals and one extra point but no HPI
record. -/
def sampleNoHpiDig : List DigPoint :=
  [⟨1, 2, ⟨0, 1, 0⟩, "head"⟩, ⟨1, 1, ⟨-1, 0, 0⟩, "head"⟩,
   ⟨1, 3, ⟨1, 0, 0⟩, "head"⟩, ⟨4, 0, ⟨3, 3, 3⟩, "head"⟩]

/-- A decoded record sequence carrying only the nasion cardinal. -/
def sampleNasionOnlyDig : List DigPoint :=
  [⟨1, 2, ⟨0, 1, 0⟩, "head"⟩]

/-- Sensor list in which a kind-1 reference sensor claims key `EEG 001`
(map is empty, so size + 1 = 1) and a later kind-0 sensor numbered 1
computes the same key. -/
def sampleCollidingSensors : List Sensor :=
  [⟨"Ref", 0, 1, 5, 5, 5⟩, ⟨"E1", 1, 0, 7, 7, 7⟩,
   ⟨"Nasion", 0, 2, 0, 1, 0⟩, ⟨"Left periauricular point", 0, 2, -1, 0, 0⟩,
   ⟨"Right periauricular point", 0, 2, 1, 0, 0⟩]

/-- Sensor list with one EEG sensor, the three fiducials and one sensor of
the unrecognized kind 99. -/
def sampleUnknownKindSensors : List Sensor :=
  [⟨"E1", 1, 0, 1, 2, 3⟩, ⟨"Nasion", 0, 2, 0, 1, 0⟩,
   ⟨"Left periauricular point", 0, 2, -1, 0, 0⟩,
   ⟨"Right periauricular point", 0, 2, 1, 0, 0⟩, ⟨"X", 9, 99, 4, 4, 4⟩]

/-- Sensor list carrying no fiducial sensors at all. -/
def sampleNoFidSensors : List Sensor :=
  [⟨"E1", 1, 0, 1, 2, 3⟩]

/-- The record produced by the binary reader on `sampleNoHpiDig`. -/
def sampleNoHpiResult : DigData :=
  { coord_frame := "head", nasion := some ⟨0, 1, 0⟩, lpa := some ⟨-1, 0, 0⟩,
    rpa := some ⟨1, 0, 0⟩, hsp := some [⟨3, 3, 3⟩], hpi := some [],
    elp := none, point_names := some [], dig_ch_pos := some [] }

/-! ### Helper lemmas about the Frame Resolver -/

theorem resolveLandmarks_of_absent (data : DigData)
    (habs : data.nasion = none ∨ data.rpa = none ∨ data.lpa = none) :
    resolveLandmarks data = resolveFromElp data := by
  rcases hn : data.nasion with _ | n <;> rcases hr : data.rpa with _ | r <;>
    rcases hl : data.lpa with _ | l <;>
    simp_all [resolveLandmarks]

theorem resolveFromElp_elpRequired (data : DigData)
    (h : data.elp = none ∨ data.point_names = none) :
    resolveFromElp data = Except.error DigErr.elpRequired := by
  rcases hel : data.elp with _ | e <;> rcases hpn : data.point_names with _ | p <;>
    simp_all [resolveFromElp]

theorem resolveFromElp_triple_congr (d1 d2 : DigData)
    (he : d1.elp = d2.elp) (hp : d1.point_names = d2.point_names) :
    Except.map (fun q => (q.1, q.2.1, q.2.2.1)) (resolveFromElp d1) =
      Except.map (fun q => (q.1, q.2.1, q.2.2.1)) (resolveFromElp d2) := by
  unfold resolveFromElp
  rw [← he, ← hp]
  rcases hel : d1.elp with _ | elp
  · simp
  · rcases hpn : d1.point_names with _ | pn
    · simp
    · by_cases hm : (fidKinds.filter
          (fun name => ! strMem (pn.map lowerStr) name)).length ≠ 0
      · simp [hm]
      · rcases h1 : elp[pyIndex (pn.map lowerStr) "nasion"]? with _ | nas <;>
        rcases h2 : elp[pyIndex (pn.map lowerStr) "lpa"]? with _ | lp <;>
        rcases h3 : elp[pyIndex (pn.map lowerStr) "rpa"]? with _ | rp <;>
        by_cases hlen : elp.length = pn.length <;>
        simp [hm, h1, h2, h3, hlen, List.length_map, Except.map]

/-! ### Claim theorems -/

/-- Claim C4: a record already in the head frame passes through
`_transform_to_head_call` unchanged, and applying it twice equals applying
it once. -/
theorem to_head_frame_idempotent {T : Type} (gras : V3 → V3 → V3 → T)
    (appT : T → V3 → V3) (data : DigData) (h : data.coord_frame = "head") :
    _transform_to_head_call gras appT data = Except.ok data ∧
    Except.bind (_transform_to_head_call gras appT data)
        (_transform_to_head_call gras appT) =
      _transform_to_head_call gras appT data := by
  have h1 : _transform_to_head_call gras appT data = Except.ok data := by
    unfold _transform_to_head_call
    simp [h]
  refine ⟨h1, ?_⟩
  rw [h1]
  simpa [Except.bind] using h1

theorem to_head_frame_idempotent_witness :
    _transform_to_head_call (fun _ _ _ => ()) (fun _ v => v) sampleHeadData =
      Except.ok sampleHeadData ∧
    Except.bind (_transform_to_head_call (fun _ _ _ => ()) (fun _ v => v)
        sampleHeadData)
        (_transform_to_head_call (fun _ _ _ => ()) (fun _ v => v)) =
      _transform_to_head_call (fun _ _ _ => ()) (fun _ v => v) sampleHeadData :=
  to_head_frame_idempotent (fun _ _ _ => ()) (fun _ v => v) sampleHeadData rfl

/-- Claim C5: for a record not in the head frame, once the landmarks are resolved
the derived transform is applied to exactly the landmark triple, `elp`,
`hsp` and the values of `dig_ch_pos`; `hpi` and `point_names` are the ones
of the resolved record, untouched; the frame is set to head. -/
theorem transform_application_scope {T : Type} (gras : V3 → V3 → V3 → T)
    (appT : T → V3 → V3) (data : DigData) (nasion lpa rpa : V3) (d2 : DigData)
    (hframe : data.coord_frame ≠ "head")
    (hres : resolveLandmarks data = Except.ok (nasion, lpa, rpa, d2)) :
    _transform_to_head_call gras appT data =
      Except.ok { d2 with
                  nasion := some (appT (gras nasion lpa rpa) nasion),
                  lpa := some (appT (gras nasion lpa rpa) lpa),
                  rpa := some (appT (gras nasion lpa rpa) rpa),
                  elp := d2.elp.map (fun l => l.map (appT (gras nasion lpa rpa))),
                  hsp := d2.hsp.map (fun l => l.map (appT (gras nasion lpa rpa))),
                  dig_ch_pos := d2.dig_ch_pos.map
                    (applyDict appT (gras nasion lpa rpa)),
                  coord_frame := "head" } := by
  unfold _transform_to_head_call
  simp [hframe, hres]

theorem transform_application_scope_witness :
    _transform_to_head_call (fun _ _ _ => ()) (fun _ v => v) sampleRawData =
      Except.ok { sampleRawData with
                  nasion := some ⟨0, 1, 0⟩, lpa := some ⟨-1, 0, 0⟩,
                  rpa := some ⟨1, 0, 0⟩, coord_frame := "head" } := by
  have h := transform_application_scope (fun _ _ _ => ()) (fun _ v => v)
    sampleRawData ⟨0, 1, 0⟩ ⟨-1, 0, 0⟩ ⟨1, 0, 0⟩ sampleRawData (by decide) rfl
  exact h.trans (by rfl)

/-- Claim C10: when any landmark field is absent, the Frame Resolver ignores the
remaining (partially populated) landmark fields: it fails when
`elp`/`point_names` are unavailable, and otherwise derives the very same
landmark triple as a full re-derivation from `elp`/`point_names` with all
landmark fields erased. -/
theorem partial_landmarks_discarded {T : Type} (gras : V3 → V3 → V3 → T)
    (appT : T → V3 → V3) (data : DigData)
    (hframe : data.coord_frame ≠ "head")
    (habs : data.nasion = none ∨ data.rpa = none ∨ data.lpa = none) :
    ((data.elp = none ∨ data.point_names = none) →
      _transform_to_head_call gras appT data =
        Except.error DigErr.elpRequired) ∧
    Except.map (fun q => (q.1, q.2.1, q.2.2.1)) (resolveLandmarks data) =
      Except.map (fun q => (q.1, q.2.1, q.2.2.1))
        (resolveLandmarks
          { data with nasion := none, rpa := none, lpa := none }) := by
  have hre : resolveLandmarks data = resolveFromElp data :=
    resolveLandmarks_of_absent data habs
  constructor
  · intro h
    have hval : resolveFromElp data = Except.error DigErr.elpRequired :=
      resolveFromElp_elpRequired data h
    unfold _transform_to_head_call
    simp [hframe, hre, hval]
  · rw [hre, resolveLandmarks_of_absent _ (Or.inl rfl)]
    exact resolveFromElp_triple_congr data _ rfl rfl

theorem partial_landmarks_discarded_witness :
    _transform_to_head_call (fun _ _ _ => ()) (fun _ v => v) samplePartialData =
      Except.error DigErr.elpRequired :=
  (partial_landmarks_discarded (fun _ _ _ => ()) (fun _ v => v)
    samplePartialData (by decide) (Or.inr (Or.inl rfl))).1 (Or.inl rfl)

/-- Claim C3: fiducial extraction from `elp`: with any landmark field absent and
`elp`/`point_names` present, the lowercased names are matched against
nasion/lpa/rpa; if any of the three is missing the resolver fails naming
exactly the missing ones, otherwise the three matched `elp` entries become
the landmarks and are removed from `elp`/`point_names` by an
order-preserving filter. -/
theorem fiducial_extraction_from_elp (data : DigData) (elp : List V3)
    (pnames : List String)
    (hframe : data.coord_frame ≠ "head")
    (habs : data.nasion = none ∨ data.rpa = none ∨ data.lpa = none)
    (help : data.elp = some elp) (hpn : data.point_names = some pnames) :
    (∀ {T : Type} (gras : V3 → V3 → V3 → T) (appT : T → V3 → V3),
      fidKinds.filter (fun k => ! strMem (pnames.map lowerStr) k) ≠ [] →
      _transform_to_head_call gras appT data = Except.error
        (DigErr.missingFiducial
          (fidKinds.filter (fun k => ! strMem (pnames.map lowerStr) k)))) ∧
    (∀ nasion lpa rpa : V3,
      fidKinds.filter (fun k => ! strMem (pnames.map lowerStr) k) = [] →
      elp.length = pnames.length →
      elp.get? (pyIndex (pnames.map lowerStr) "nasion") = some nasion →
      elp.get? (pyIndex (pnames.map lowerStr) "lpa") = some lpa →
      elp.get? (pyIndex (pnames.map lowerStr) "rpa") = some rpa →
      resolveLandmarks data = Except.ok (nasion, lpa, rpa,
        { data with
          elp := some (dropIdxs [pyIndex (pnames.map lowerStr) "nasion",
                                 pyIndex (pnames.map lowerStr) "lpa",
                                 pyIndex (pnames.map lowerStr) "rpa"] elp),
          point_names := some (dropIdxs
            [pyIndex (pnames.map lowerStr) "nasion",
             pyIndex (pnames.map lowerStr) "lpa",
             pyIndex (pnames.map lowerStr) "rpa"] pnames) })) := by
  have hre : resolveLandmarks data = resolveFromElp data :=
    resolveLandmarks_of_absent data habs
  constructor
  · intro T gras appT hmiss
    have hm : (fidKinds.filter
        (fun k => ! strMem (pnames.map lowerStr) k)).length ≠ 0 := by
      simpa [List.length_eq_zero] using hmiss
    have hval : resolveFromElp data = Except.error
        (DigErr.missingFiducial
          (fidKinds.filter (fun k => ! strMem (pnames.map lowerStr) k))) := by
      unfold resolveFromElp
      simp [help, hpn, hm]
    unfold _transform_to_head_call
    simp [hframe, hre, hval]
  · intro nasion lpa rpa hm0 hlen h1 h2 h3
    rw [hre]
    unfold resolveFromElp
    simp only [List.get?_eq_getElem?] at h1 h2 h3
    simp [help, hpn, hm0, hlen, h1, h2, h3, List.length_map]

theorem fiducial_extraction_from_elp_witness :
    resolveLandmarks sampleElpData =
      Except.ok (⟨0, 1, 0⟩, ⟨-1, 0, 0⟩, ⟨1, 0, 0⟩,
        { sampleElpData with elp := some [⟨5, 5, 5⟩],
                             point_names := some ["HPI001"] }) := by
  have h := (fiducial_extraction_from_elp sampleElpData sampleElp
      ["Nasion", "LPA", "RPA", "HPI001"] (by decide) (Or.inl rfl) rfl rfl).2
      ⟨0, 1, 0⟩ ⟨-1, 0, 0⟩ ⟨1, 0, 0⟩ (by decide) (by decide) (by decide)
      (by decide) (by decide)
  exact h.trans (by rfl)

/-! ### Helper lemmas about the binary reader -/

theorem fifFold_append (l1 l2 : List DigPoint) : ∀ st : FifAcc,
    fifFold st (l1 ++ l2) =
      Except.bind (fifFold st l1) (fun s => fifFold s l2) := by
  induction l1 with
  | nil => intro st; simp [fifFold, Except.bind]
  | cons d rest ih =>
    intro st
    simp only [List.cons_append, fifFold]
    rcases h : fifStep st d with e | st2 <;> simp only [h]
    · rfl
    · exact ih st2

theorem fifStep_frameMismatch (st : FifAcc) (d : DigPoint)
    (hkind : d.kind = FIFFV_POINT_CARDINAL ∨ d.kind = FIFFV_POINT_HPI ∨
      d.kind = FIFFV_POINT_EXTRA ∨ d.kind = FIFFV_POINT_EEG)
    (hframe : d.coord_frame ≠ "head") :
    fifStep st d = Except.error (DigErr.frameMismatch d) := by
  rcases hkind with h | h | h | h <;>
    simp [fifStep, _check_frame, h, hframe, FIFFV_POINT_CARDINAL,
          FIFFV_POINT_HPI, FIFFV_POINT_EXTRA, FIFFV_POINT_EEG]

theorem fifStep_ok_fields (st st2 : FifAcc) (d : DigPoint)
    (h : fifStep st d = Except.ok st2) :
    st2.hpi = st.hpi ++ (if d.kind = FIFFV_POINT_HPI then [d.r] else []) ∧
    st2.hsp = st.hsp ++ (if d.kind = FIFFV_POINT_EXTRA then [d.r] else []) ∧
    st2.elp = st.elp ++ (if d.kind = FIFFV_POINT_HPI then [d.r] else []) := by
  unfold fifStep _check_frame at h
  rcases hmap : _cardinal_ident_mapping d.ident with _ | name <;>
  by_cases h1 : d.kind = FIFFV_POINT_CARDINAL <;>
  by_cases h2 : d.kind = FIFFV_POINT_HPI <;>
  by_cases h3 : d.kind = FIFFV_POINT_EXTRA <;>
  by_cases h4 : d.kind = FIFFV_POINT_EEG <;>
  by_cases hfr : d.coord_frame = "head" <;>
  simp_all [FIFFV_POINT_CARDINAL, FIFFV_POINT_HPI, FIFFV_POINT_EXTRA,
            FIFFV_POINT_EEG] <;>
  (subst h; simp)

theorem fifFold_fields (dig : List DigPoint) : ∀ st st2 : FifAcc,
    fifFold st dig = Except.ok st2 →
    st2.hpi = st.hpi ++
      (dig.filter (fun d => d.kind == FIFFV_POINT_HPI)).map DigPoint.r ∧
    st2.hsp = st.hsp ++
      (dig.filter (fun d => d.kind == FIFFV_POINT_EXTRA)).map DigPoint.r ∧
    st2.elp = st.elp ++
      (dig.filter (fun d => d.kind == FIFFV_POINT_HPI)).map DigPoint.r := by
  induction dig with
  | nil =>
    intro st st2 h
    simp [fifFold] at h
    simp [h]
  | cons d rest ih =>
    intro st st2 h
    unfold fifFold at h
    rcases hs : fifStep st d with e | st1 <;> rw [hs] at h
    · exact absurd h (by simp)
    · obtain ⟨e1, e2, e3⟩ := fifStep_ok_fields st st1 d hs
      obtain ⟨g1, g2, g3⟩ := ih st1 st2 h
      by_cases hk2 : d.kind = FIFFV_POINT_HPI <;>
      by_cases hk4 : d.kind = FIFFV_POINT_EXTRA <;>
      simp_all [List.filter_cons, List.append_assoc, FIFFV_POINT_HPI,
                FIFFV_POINT_EXTRA]

theorem fif_read_ok_inv (dig : List DigPoint) (rec : DigData)
    (h : _read_dig_montage_fif false true dig = Except.ok rec) :
    ∃ (st : FifAcc) (nasion lpa rpa : V3),
      fifFold initFifAcc dig = Except.ok st ∧
      lookupDict st.fids "nasion" = some nasion ∧
      lookupDict st.fids "lpa" = some lpa ∧
      lookupDict st.fids "rpa" = some rpa ∧
      rec = { coord_frame := "head", nasion := some nasion, lpa := some lpa,
              rpa := some rpa,
              hsp := if st.hsp.length ≠ 0 then some st.hsp else none,
              hpi := some st.hpi,
              elp := if st.elp.length ≠ 0 then some st.elp else none,
              point_names := some st.point_names,
              dig_ch_pos := some st.dig_ch_pos } := by
  unfold _read_dig_montage_fif requireFid at h
  simp only [Bool.not_true, if_false, Bool.false_eq_true, ite_false] at h
  rcases hf : fifFold initFifAcc dig with e | st <;> simp only [hf] at h
  · exact absurd h (by simp)
  · rcases l1 : lookupDict st.fids "nasion" with _ | nas <;>
      simp only [l1] at h
    · exact absurd h (by simp)
    · rcases l2 : lookupDict st.fids "lpa" with _ | lp <;>
        simp only [l2] at h
      · exact absurd h (by simp)
      · rcases l3 : lookupDict st.fids "rpa" with _ | rp <;>
          simp only [l3] at h
        · exact absurd h (by simp)
        · simp only [Except.ok.injEq] at h
          exact ⟨st, nas, lp, rp, rfl, l1, l2, l3, h.symm⟩

/-! ### Binary-reader claim theorems -/

/-- Claim C1 (amended): a decoded record of a recognized kind (cardinal, HPI,
extra, EEG) whose declared frame is not head fails the whole read with
`FrameMismatch` naming that record, provided the records before it process
without error; records of unrecognized kinds are not frame-checked. -/
theorem frame_guard_recognized_kinds (pre post : List DigPoint) (d : DigPoint)
    (st : FifAcc) (hpre : fifFold initFifAcc pre = Except.ok st)
    (hkind : d.kind = FIFFV_POINT_CARDINAL ∨ d.kind = FIFFV_POINT_HPI ∨
      d.kind = FIFFV_POINT_EXTRA ∨ d.kind = FIFFV_POINT_EEG)
    (hframe : d.coord_frame ≠ "head") :
    _read_dig_montage_fif false true (pre ++ d :: post) =
      Except.error (DigErr.frameMismatch d) := by
  have hstep := fifStep_frameMismatch st d hkind hframe
  have hfold : fifFold initFifAcc (pre ++ d :: post) =
      Except.error (DigErr.frameMismatch d) := by
    rw [fifFold_append, hpre]
    simp [Except.bind, fifFold, hstep]
  unfold _read_dig_montage_fif
  simp [hfold]

theorem frame_guard_recognized_kinds_witness :
    _read_dig_montage_fif false true [⟨2, 1, ⟨2, 2, 2⟩, "meg"⟩] =
      Except.error (DigErr.frameMismatch ⟨2, 1, ⟨2, 2, 2⟩, "meg"⟩) :=
  frame_guard_recognized_kinds [] [] ⟨2, 1, ⟨2, 2, 2⟩, "meg"⟩ initFifAcc rfl
    (Or.inr (Or.inl rfl)) (by decide)

/-- Claim C1 (counterexample to the claim as stated): `sampleStrayFrameDig`
contains a record whose declared frame is not head (kind 99, unrecognized),
yet the read succeeds and returns a record. -/
theorem frame_guard_counterexample :
    (∃ d ∈ sampleStrayFrameDig, d.coord_frame ≠ "head") ∧
    (∃ rec, _read_dig_montage_fif false true sampleStrayFrameDig =
      Except.ok rec) := by
  constructor
  · exact ⟨⟨99, 0, ⟨0, 0, 0⟩, "unknown"⟩, by decide, by decide⟩
  · exact ⟨_, rfl⟩

/-- Claim C6: the binary reader's classification: a head-frame cardinal record
stores its position under the fiducial selected by the ident table (a
record with an unrecognized ident fails); an HPI record appends to `hpi`
and `elp` and a label `HPI` + zero-padded ident to `point_names`; an extra
record appends to `hsp`; an EEG record is inserted into `dig_ch_pos` under
`EEG` + zero-padded ident; any other kind is ignored without error; an
accepted read always carries `coord_frame = head`. -/
theorem binary_reader_classification :
    (∀ (st : FifAcc) (d : DigPoint), d.coord_frame = "head" →
      (d.kind = FIFFV_POINT_CARDINAL →
        (∀ name, _cardinal_ident_mapping d.ident = some name →
          fifStep st d =
            Except.ok { st with fids := dictInsert st.fids name d.r }) ∧
        (_cardinal_ident_mapping d.ident = none →
          fifStep st d = Except.error (DigErr.malformedInput d.ident))) ∧
      (d.kind = FIFFV_POINT_HPI →
        fifStep st d = Except.ok { st with
                                   hpi := st.hpi ++ [d.r],
                                   elp := st.elp ++ [d.r],
                                   point_names := st.point_names ++
                                     ["HPI" ++ zfill3 d.ident] }) ∧
      (d.kind = FIFFV_POINT_EXTRA →
        fifStep st d = Except.ok { st with hsp := st.hsp ++ [d.r] }) ∧
      (d.kind = FIFFV_POINT_EEG →
        fifStep st d = Except.ok { st with
                                   dig_ch_pos := dictInsert st.dig_ch_pos
                                     ("EEG" ++ zfill3 d.ident) d.r })) ∧
    (∀ (st : FifAcc) (d : DigPoint),
      d.kind ≠ FIFFV_POINT_CARDINAL → d.kind ≠ FIFFV_POINT_HPI →
      d.kind ≠ FIFFV_POINT_EXTRA → d.kind ≠ FIFFV_POINT_EEG →
      fifStep st d = Except.ok st) ∧
    (∀ (dig : List DigPoint) (rec : DigData),
      _read_dig_montage_fif false true dig = Except.ok rec →
      rec.coord_frame = "head") := by
  refine ⟨?_, ?_, ?_⟩
  · intro st d hfr
    refine ⟨?_, ?_, ?_, ?_⟩
    · intro hk
      constructor
      · intro name hmap
        simp [fifStep, _check_frame, hk, hfr, hmap]
      · intro hmap
        simp [fifStep, _check_frame, hk, hfr, hmap]
    · intro hk
      simp [fifStep, _check_frame, hk, hfr, FIFFV_POINT_CARDINAL,
            FIFFV_POINT_HPI]
    · intro hk
      simp [fifStep, _check_frame, hk, hfr, FIFFV_POINT_CARDINAL,
            FIFFV_POINT_HPI, FIFFV_POINT_EXTRA]
    · intro hk
      simp [fifStep, _check_frame, hk, hfr, FIFFV_POINT_CARDINAL,
            FIFFV_POINT_HPI, FIFFV_POINT_EXTRA, FIFFV_POINT_EEG]
  · intro st d h1 h2 h3 h4
    simp [fifStep, h1, h2, h3, h4]
  · intro dig rec h
    obtain ⟨st, nas, lp, rp, _, _, _, _, hrec⟩ := fif_read_ok_inv dig rec h
    rw [hrec]

theorem binary_reader_classification_witness :
    fifStep initFifAcc ⟨2, 1, ⟨2, 2, 2⟩, "head"⟩ =
      Except.ok { initFifAcc with
                  hpi := [⟨2, 2, 2⟩], elp := [⟨2, 2, 2⟩],
                  point_names := ["HPI001"] } := by
  have h := ((binary_reader_classification.1 initFifAcc
    ⟨2, 1, ⟨2, 2, 2⟩, "head"⟩ rfl).2.1) rfl
  exact h.trans (by rfl)

/-- Claim C8: in both readers, if after classifying the whole input any of the
three fiducials was never assigned, the read fails with a
`MissingFiducial` error and returns no record. -/
theorem missing_fiducial_fails :
    (∀ (dig : List DigPoint) (st : FifAcc),
      fifFold initFifAcc dig = Except.ok st →
      (lookupDict st.fids "nasion" = none ∨ lookupDict st.fids "lpa" = none ∨
        lookupDict st.fids "rpa" = none) →
      ∃ name, _read_dig_montage_fif false true dig =
        Except.error (DigErr.missingFiducial [name])) ∧
    (∀ (scaling : ℤ) (sensors : List Sensor) (st : EgiAcc),
      egiFold scaling initEgiAcc sensors = Except.ok st →
      (lookupDict st.fids "nasion" = none ∨ lookupDict st.fids "lpa" = none ∨
        lookupDict st.fids "rpa" = none) →
      ∃ name, _read_dig_montage_egi scaling true sensors =
        Except.error (DigErr.missingFiducial [name])) := by
  constructor
  · intro dig st hf hmiss
    rcases l1 : lookupDict st.fids "nasion" with _ | nas
    · exact ⟨"nasion", by unfold _read_dig_montage_fif requireFid
                          simp [hf, l1]⟩
    · rcases l2 : lookupDict st.fids "lpa" with _ | lp
      · exact ⟨"lpa", by unfold _read_dig_montage_fif requireFid
                         simp [hf, l1, l2]⟩
      · rcases l3 : lookupDict st.fids "rpa" with _ | rp
        · exact ⟨"rpa", by unfold _read_dig_montage_fif requireFid
                           simp [hf, l1, l2, l3]⟩
        · rcases hmiss with h | h | h <;> simp_all
  · intro scaling sensors st hf hmiss
    rcases l1 : lookupDict st.fids "nasion" with _ | nas
    · exact ⟨"nasion", by unfold _read_dig_montage_egi requireFid
                          simp [hf, l1]⟩
    · rcases l2 : lookupDict st.fids "lpa" with _ | lp
      · exact ⟨"lpa", by unfold _read_dig_montage_egi requireFid
                         simp [hf, l1, l2]⟩
      · rcases l3 : lookupDict st.fids "rpa" with _ | rp
        · exact ⟨"rpa", by unfold _read_dig_montage_egi requireFid
                           simp [hf, l1, l2, l3]⟩
        · rcases hmiss with h | h | h <;> simp_all

theorem missing_fiducial_fails_witness :
    ∃ name, _read_dig_montage_fif false true sampleNasionOnlyDig =
      Except.error (DigErr.missingFiducial [name]) :=
  missing_fiducial_fails.1 sampleNasionOnlyDig
    ⟨[], [], [], [], [("nasion", ⟨0, 1, 0⟩)], []⟩ rfl (Or.inr (Or.inl rfl))

/-- Claim C9: an accepted binary read always returns `hpi` as a sequence (empty
when the input has no HPI record, never absent), while `hsp` and `elp` are
absent — not empty — when there is no extra or HPI record respectively. -/
theorem hpi_empty_not_absent (dig : List DigPoint) (rec : DigData)
    (hok : _read_dig_montage_fif false true dig = Except.ok rec) :
    (∃ l, rec.hpi = some l) ∧
    ((∀ d ∈ dig, d.kind ≠ FIFFV_POINT_HPI) → rec.hpi = some []) ∧
    ((∀ d ∈ dig, d.kind ≠ FIFFV_POINT_EXTRA) → rec.hsp = none) ∧
    ((∀ d ∈ dig, d.kind ≠ FIFFV_POINT_HPI) → rec.elp = none) := by
  obtain ⟨st, nas, lp, rp, hf, _, _, _, hrec⟩ := fif_read_ok_inv dig rec hok
  obtain ⟨e1, e2, e3⟩ := fifFold_fields dig initFifAcc st hf
  subst hrec
  refine ⟨⟨st.hpi, rfl⟩, ?_, ?_, ?_⟩
  · intro hnone
    have hfil : dig.filter (fun d => d.kind == FIFFV_POINT_HPI) = [] := by
      simp only [List.filter_eq_nil_iff]
      intro a ha
      simpa using hnone a ha
    simp [e1, hfil, initFifAcc]
  · intro hnone
    have hfil : dig.filter (fun d => d.kind == FIFFV_POINT_EXTRA) = [] := by
      simp only [List.filter_eq_nil_iff]
      intro a ha
      simpa using hnone a ha
    have : st.hsp = [] := by simpa [hfil, initFifAcc] using e2
    simp [this]
  · intro hnone
    have hfil : dig.filter (fun d => d.kind == FIFFV_POINT_HPI) = [] := by
      simp only [List.filter_eq_nil_iff]
      intro a ha
      simpa using hnone a ha
    have : st.elp = [] := by simpa [hfil, initFifAcc] using e3
    simp [this]

theorem hpi_empty_not_absent_witness :
    _read_dig_montage_fif false true sampleNoHpiDig =
      Except.ok sampleNoHpiResult ∧
    sampleNoHpiResult.hpi = some [] ∧ sampleNoHpiResult.elp = none := by
  have hok : _read_dig_montage_fif false true sampleNoHpiDig =
      Except.ok sampleNoHpiResult := rfl
  have h := hpi_empty_not_absent sampleNoHpiDig sampleNoHpiResult hok
  exact ⟨hok, h.2.1 (by decide), h.2.2.2 (by decide)⟩

/-! ### Helper lemmas about dictionaries and the XML reader -/

theorem not_mem_of_keyMem_false (m : List (String × V3)) (k : String)
    (h : keyMem m k = false) : k ∉ m.map Prod.fst := by
  induction m with
  | nil => simp
  | cons p rest ih =>
    have hp : ¬ p.1 = k := by
      by_contra hc
      simp [keyMem, hc] at h
    have h2 : keyMem rest k = false := by simpa [keyMem, hp] using h
    simp only [List.map_cons, List.mem_cons]
    push_neg
    exact ⟨fun hc => hp hc.symm, ih h2⟩

theorem mapFst_overwrite (m : List (String × V3)) (k : String) (v : V3) :
    (m.map (fun p => if p.1 = k then (k, v) else p)).map Prod.fst =
      m.map Prod.fst := by
  induction m with
  | nil => rfl
  | cons p rest ih =>
    simp only [List.map_cons, ih]
    by_cases h : p.1 = k
    · rw [if_pos h]
      simp [h]
    · rw [if_neg h]

theorem dictInsert_keys_of_mem (m : List (String × V3)) (k : String) (v : V3)
    (h : keyMem m k = true) :
    (dictInsert m k v).map Prod.fst = m.map Prod.fst := by
  unfold dictInsert
  rw [if_pos h]
  exact mapFst_overwrite m k v

theorem dictInsert_keys_of_not_mem (m : List (String × V3)) (k : String)
    (v : V3) (h : keyMem m k = false) :
    (dictInsert m k v).map Prod.fst = m.map Prod.fst ++ [k] := by
  simp [dictInsert, h]

theorem dictInsert_keys_nodup (m : List (String × V3)) (k : String) (v : V3)
    (h : (m.map Prod.fst).Nodup) :
    ((dictInsert m k v).map Prod.fst).Nodup := by
  cases hk : keyMem m k
  · rw [dictInsert_keys_of_not_mem m k v hk]
    have hnot : k ∉ m.map Prod.fst := not_mem_of_keyMem_false m k hk
    simp [List.nodup_append, h, hnot]
  · rw [dictInsert_keys_of_mem m k v hk]
    exact h

theorem lookupDict_overwrite (m : List (String × V3)) (k : String) (v : V3)
    (h : keyMem m k = true) :
    lookupDict (m.map (fun p => if p.1 = k then (k, v) else p)) k =
      some v := by
  induction m with
  | nil => simp [keyMem] at h
  | cons p rest ih =>
    by_cases hp : p.1 = k
    · simp [lookupDict, hp]
    · have h2 : keyMem rest k = true := by simpa [keyMem, hp] using h
      simp [lookupDict, hp, ih h2]

theorem lookupDict_append_right (m l : List (String × V3)) (k : String)
    (h : keyMem m k = false) :
    lookupDict (m ++ l) k = lookupDict l k := by
  induction m with
  | nil => rfl
  | cons p rest ih =>
    have hp : ¬ p.1 = k := by
      by_contra hc
      simp [keyMem, hc] at h
    have h2 : keyMem rest k = false := by simpa [keyMem, hp] using h
    simp [lookupDict, hp, ih h2]

theorem lookupDict_dictInsert_self (m : List (String × V3)) (k : String)
    (v : V3) : lookupDict (dictInsert m k v) k = some v := by
  cases hk : keyMem m k
  · rw [dictInsert, if_neg (by simp [hk])]
    rw [lookupDict_append_right m _ k hk]
    simp [lookupDict]
  · rw [dictInsert, if_pos (by simp [hk])]
    exact lookupDict_overwrite m k v hk

theorem egiStep_ok_dig_nodup (scaling : ℤ) (st st2 : EgiAcc) (s : Sensor)
    (h : egiStep scaling st s = Except.ok st2)
    (hn : (st.dig_ch_pos.map Prod.fst).Nodup) :
    (st2.dig_ch_pos.map Prod.fst).Nodup := by
  unfold egiStep at h
  by_cases h0 : s.kind = 0
  · rw [if_pos h0] at h
    simp only [Except.ok.injEq] at h
    rw [← h]
    exact dictInsert_keys_nodup _ _ _ hn
  · rw [if_neg h0] at h
    by_cases h1 : s.kind = 1
    · rw [if_pos h1] at h
      simp only [Except.ok.injEq] at h
      rw [← h]
      exact dictInsert_keys_nodup _ _ _ hn
    · rw [if_neg h1] at h
      by_cases h2 : s.kind = 2
      · rw [if_pos h2] at h
        rcases hmap : fid_name_map s.name with _ | fidName <;>
          simp only [hmap, Except.ok.injEq] at h
        · exact absurd h (by simp)
        · rw [← h]
          exact hn
      · rw [if_neg h2] at h
        simp only [Except.ok.injEq] at h
        rw [← h]
        exact hn

theorem egiFold_dig_nodup (sensors : List Sensor) (scaling : ℤ) :
    ∀ st st2 : EgiAcc, egiFold scaling st sensors = Except.ok st2 →
      (st.dig_ch_pos.map Prod.fst).Nodup →
      (st2.dig_ch_pos.map Prod.fst).Nodup := by
  induction sensors with
  | nil =>
    intro st st2 h hn
    simp [egiFold] at h
    rwa [← h]
  | cons s rest ih =>
    intro st st2 h hn
    unfold egiFold at h
    rcases hs : egiStep scaling st s with e | st1 <;> rw [hs] at h
    · exact absurd h (by simp)
    · exact ih st1 st2 h (egiStep_ok_dig_nodup scaling st st1 s hs hn)

theorem egi_read_ok_inv (scaling : ℤ) (sensors : List Sensor) (rec : DigData)
    (ws : List String)
    (h : _read_dig_montage_egi scaling true sensors = Except.ok (rec, ws)) :
    ∃ (st : EgiAcc) (nasion lpa rpa : V3),
      egiFold scaling initEgiAcc sensors = Except.ok st ∧
      rec = { coord_frame := "unknown", nasion := some nasion,
              lpa := some lpa, rpa := some rpa, hsp := none, hpi := none,
              elp := none, point_names := none,
              dig_ch_pos := some st.dig_ch_pos } ∧
      ws = st.warnings := by
  unfold _read_dig_montage_egi requireFid at h
  simp only [Bool.not_true, Bool.false_eq_true, ite_false] at h
  rcases hf : egiFold scaling initEgiAcc sensors with e | st <;>
    simp only [hf] at h
  · exact absurd h (by simp)
  · rcases l1 : lookupDict st.fids "nasion" with _ | nas <;>
      simp only [l1] at h
    · exact absurd h (by simp)
    · rcases l2 : lookupDict st.fids "lpa" with _ | lp <;>
        simp only [l2] at h
      · exact absurd h (by simp)
      · rcases l3 : lookupDict st.fids "rpa" with _ | rp <;>
          simp only [l3] at h
        · exact absurd h (by simp)
        · simp only [Except.ok.injEq, Prod.mk.injEq] at h
          exact ⟨st, nas, lp, rp, rfl, h.1.symm, h.2.symm⟩

/-! ### XML-reader claim theorems -/

/-- Claim C7: a sensor of unrecognized kind produces exactly one warning and is
skipped (the state is otherwise untouched and processing continues), and an
accepted XML read always has frame `unknown` with `hsp`, `hpi`, `elp` and
`point_names` absent. -/
theorem egi_unknown_kind_tolerance :
    (∀ (scaling : ℤ) (st : EgiAcc) (s : Sensor),
      s.kind ≠ 0 → s.kind ≠ 1 → s.kind ≠ 2 →
      egiStep scaling st s =
        Except.ok { st with
                    warnings := st.warnings ++ [warnUnknownKind s.kind] }) ∧
    (∀ (scaling : ℤ) (sensors : List Sensor) (rec : DigData)
      (ws : List String),
      _read_dig_montage_egi scaling true sensors = Except.ok (rec, ws) →
      rec.coord_frame = "unknown" ∧ rec.hsp = none ∧ rec.hpi = none ∧
        rec.elp = none ∧ rec.point_names = none) := by
  constructor
  · intro scaling st s h0 h1 h2
    simp [egiStep, h0, h1, h2]
  · intro scaling sensors rec ws h
    obtain ⟨st, nas, lp, rp, _, hrec, _⟩ :=
      egi_read_ok_inv scaling sensors rec ws h
    subst hrec
    exact ⟨rfl, rfl, rfl, rfl, rfl⟩

theorem egi_unknown_kind_tolerance_witness :
    egiStep 1 initEgiAcc ⟨"X", 9, 99, 4, 4, 4⟩ =
      Except.ok { initEgiAcc with warnings := [warnUnknownKind 99] } := by
  have h := egi_unknown_kind_tolerance.1 1 initEgiAcc ⟨"X", 9, 99, 4, 4, 4⟩
    (by decide) (by decide) (by decide)
  exact h.trans (by rfl)

/-- Claim C2 (counterexample to the claim as stated): in
`sampleCollidingSensors` the kind-1 reference sensor takes key `EEG 001`
(dict size 0 + 1) and the later kind-0 sensor numbered 1 computes the same
key; the read succeeds — no construction-time error — and the earlier
entry has been silently overwritten with the later coordinates. -/
theorem dig_ch_pos_collision_counterexample :
    ∃ rec ws, _read_dig_montage_egi 1 true sampleCollidingSensors =
        Except.ok (rec, ws) ∧
      rec.dig_ch_pos = some [("EEG 001", ⟨7, 7, 7⟩)] := by
  refine ⟨_, _, rfl, ?_⟩
  decide

/-- Claim C2 (amended): the keys of the produced `dig_ch_pos` are pairwise
distinct, but a key collision during construction is not an error: the
insertion succeeds, the key set is unchanged, and the colliding key is
silently rebound to the new sensor's (scaled) coordinates. -/
theorem dig_ch_pos_keys_unique_overwrite :
    (∀ (scaling : ℤ) (sensors : List Sensor) (rec : DigData)
      (ws : List String) (m : List (String × V3)),
      _read_dig_montage_egi scaling true sensors = Except.ok (rec, ws) →
      rec.dig_ch_pos = some m → (m.map Prod.fst).Nodup) ∧
    (∀ (scaling : ℤ) (st : EgiAcc) (s : Sensor),
      s.kind = 0 → keyMem st.dig_ch_pos ("EEG " ++ zfill3 s.number) = true →
      ∃ st2, egiStep scaling st s = Except.ok st2 ∧
        st2.dig_ch_pos.map Prod.fst = st.dig_ch_pos.map Prod.fst ∧
        lookupDict st2.dig_ch_pos ("EEG " ++ zfill3 s.number) =
          some (scaleV3 scaling ⟨s.c1, s.c2, s.c3⟩)) := by
  constructor
  · intro scaling sensors rec ws m h hm
    obtain ⟨st, nas, lp, rp, hf, hrec, _⟩ :=
      egi_read_ok_inv scaling sensors rec ws h
    subst hrec
    simp only [Option.some.injEq] at hm
    rw [← hm]
    exact egiFold_dig_nodup sensors scaling initEgiAcc st hf (by simp [initEgiAcc])
  · intro scaling st s h0 hmem
    refine ⟨{ st with
              dig_ch_pos := dictInsert st.dig_ch_pos
                ("EEG " ++ zfill3 s.number)
                (scaleV3 scaling ⟨s.c1, s.c2, s.c3⟩) }, ?_, ?_, ?_⟩
    · simp [egiStep, h0]
    · exact dictInsert_keys_of_mem _ _ _ hmem
    · exact lookupDict_dictInsert_self _ _ _

theorem dig_ch_pos_keys_unique_overwrite_witness :
    ∃ st2, egiStep 1 ⟨[], [("EEG 001", ⟨5, 5, 5⟩)], []⟩
        ⟨"E1", 1, 0, 7, 7, 7⟩ = Except.ok st2 ∧
      st2.dig_ch_pos.map Prod.fst =
        (⟨[], [("EEG 001", ⟨5, 5, 5⟩)], []⟩ : EgiAcc).dig_ch_pos.map
          Prod.fst ∧
      lookupDict st2.dig_ch_pos ("EEG " ++ zfill3 (1 : Nat)) =
        some (scaleV3 1 ⟨7, 7, 7⟩) :=
  dig_ch_pos_keys_unique_overwrite.2 1 ⟨[], [("EEG 001", ⟨5, 5, 5⟩)], []⟩
    ⟨"E1", 1, 0, 7, 7, 7⟩ rfl (by decide)
